import Mathlib

/-!
Verification development for the `bedbuild` CLI (src/index.ts).

The reusable core of the program consists of:
* `spawn` — the ProcessRunner: wraps a child process in a promise, accumulating
  the stdout/stderr streams separately and interleaved, resolving with the exit
  code on the `exit` event and rejecting on the `error` event;
* `downloadFile` — the FileFetcher: pipes an HTTP GET body to a file, logging a
  percentage on each data chunk, resolving on the request library's `complete`
  event and rejecting on `error`;
* `exit` — centralized process termination with an optional message routed to
  the informational or error console stream depending on the code;
* `assertHasTagName` (two textually identical copies) and the release-tag
  lookup functions `getLatestGitTag` / `getFabrikateVersion`.

Each component is embedded as a state machine driven by the list of events the
underlying handle emits, in emission order.  Promise semantics are modelled by
a `settled` field that only the first `resolve`/`reject` may set.
-/

namespace BedBuild

/-! ## ProcessRunner: the `spawn` helper -/

/-- An event emitted by the child-process handle (§6 host process launcher):
a stdout data chunk, a stderr data chunk, a launch `error`, or the `exit`
event carrying a numeric-or-null code. -/
inductive ChildEvent
  | out (data : String)
  | err (data : String)
  | error (e : String)
  | exited (code : Option Int)
deriving Repr, DecidableEq

/-- The object `spawn` resolves with: `{ stdout, stderr, stdCombined, code }`. -/
structure SpawnResult where
  stdout : String
  stderr : String
  stdCombined : String
  code : Int
deriving Repr, DecidableEq

/-- The mutable state of one `spawn` call: the three accumulating string
buffers, the `code` variable (initialised to `0`), and the promise's
settlement (`none` = pending). -/
structure SpawnState where
  stdout : String
  stderr : String
  stdCombined : String
  code : Int
  settled : Option (Except String SpawnResult)

/-- `let stdout = ""; let stderr = ""; let stdCombined = ""; let code = 0;`
and a pending promise. -/
def initSpawnState : SpawnState :=
  { stdout := "", stderr := "", stdCombined := "", code := 0, settled := none }

/-- One event handled by the listeners registered in `spawn`:
`child.stdout.on("data", ...)` appends to `stdout` and `stdCombined`;
`child.stderr.on("data", ...)` appends to `stderr` and `stdCombined`;
`child.on("error", err => reject(err))`;
`child.on("exit", exitCode => { code = exitCode ?? code; resolve({...}) })`.
A promise settles only once: a second `resolve`/`reject` is a no-op. -/
def spawnStep (s : SpawnState) (ev : ChildEvent) : SpawnState :=
  match ev with
  | .out d => { s with stdout := s.stdout ++ d, stdCombined := s.stdCombined ++ d }
  | .err d => { s with stderr := s.stderr ++ d, stdCombined := s.stdCombined ++ d }
  | .error e =>
    match s.settled with
    | none => { s with settled := some (Except.error e) }
    | some _ => s
  | .exited c =>
    let code := c.getD s.code
    match s.settled with
    | none =>
      { stdout := s.stdout, stderr := s.stderr, stdCombined := s.stdCombined,
        code := code,
        settled := some (Except.ok
          { stdout := s.stdout, stderr := s.stderr, stdCombined := s.stdCombined,
            code := code }) }
    | some _ => { s with code := code }

/-- Run the `spawn` listeners over a trace of child events. -/
def runSpawnAux (s : SpawnState) : List ChildEvent → SpawnState
  | [] => s
  | ev :: rest => runSpawnAux (spawnStep s ev) rest

/-- The settlement of the promise returned by `spawn` after the child handle
emitted the given trace of events (`none` = still pending). -/
def runSpawn (tr : List ChildEvent) : Option (Except String SpawnResult) :=
  (runSpawnAux initSpawnState tr).settled

/-- The first event of a trace that settles the promise: `Sum.inl e` when the
launcher's `error` event comes first (launch failure), `Sum.inr c` when the
`exit` event with code `c` comes first, `none` when neither occurs. -/
def firstSettle : List ChildEvent → Option (Sum String (Option Int))
  | [] => none
  | .error e :: _ => some (Sum.inl e)
  | .exited c :: _ => some (Sum.inr c)
  | _ :: rest => firstSettle rest

/-- A data event on one of the two streams: `true` tags stdout, `false`
tags stderr. -/
def dataEvent : Bool × String → ChildEvent
  | (true, d) => ChildEvent.out d
  | (false, d) => ChildEvent.err d

/-- Concatenation of a list of string chunks in order. -/
def strConcat : List String → String
  | [] => ""
  | s :: rest => s ++ strConcat rest

/-- The stdout chunks of a tagged chunk list, concatenated in order. -/
def outConcat (chunks : List (Bool × String)) : String :=
  strConcat ((chunks.filter (fun p => p.1)).map (fun p => p.2))

/-- The stderr chunks of a tagged chunk list, concatenated in order. -/
def errConcat (chunks : List (Bool × String)) : String :=
  strConcat ((chunks.filter (fun p => !p.1)).map (fun p => p.2))

/-- All chunks of a tagged chunk list, concatenated in arrival order —
the interleaving of the two streams. -/
def allConcat (chunks : List (Bool × String)) : String :=
  strConcat (chunks.map (fun p => p.2))

/-! ## FileFetcher: the `downloadFile` helper -/

/-- A JavaScript number as it arises in `downloadFile`'s percentage
computation: `NaN`, the two infinities, or a finite value (modelled as an
exact rational; every value the code produces is exact). -/
inductive JSNum
  | nan
  | posInf
  | negInf
  | num (q : Rat)
deriving Repr, DecidableEq

/-- JavaScript division: `0 / 0` is `NaN`, `a / 0` is a signed infinity for
finite nonzero `a`, `NaN` is absorbing, finite `a / ±Infinity` is `0`, and
`±Infinity / ±Infinity` is `NaN`. -/
def jsDiv : JSNum → JSNum → JSNum
  | .nan, _ => .nan
  | _, .nan => .nan
  | .num a, .num b =>
    if b = 0 then (if a = 0 then .nan else if 0 < a then .posInf else .negInf)
    else .num (a / b)
  | .num _, .posInf => .num 0
  | .num _, .negInf => .num 0
  | .posInf, .num b => if 0 ≤ b then .posInf else .negInf
  | .negInf, .num b => if 0 ≤ b then .negInf else .posInf
  | _, _ => .nan

/-- JavaScript multiplication: `NaN` is absorbing, `±Infinity * 0` is `NaN`,
`±Infinity` times a nonzero finite value is a signed infinity. -/
def jsMul : JSNum → JSNum → JSNum
  | .nan, _ => .nan
  | _, .nan => .nan
  | .num a, .num b => .num (a * b)
  | .posInf, .num b => if b = 0 then .nan else if 0 < b then .posInf else .negInf
  | .negInf, .num b => if b = 0 then .nan else if 0 < b then .negInf else .posInf
  | .num a, .posInf => if a = 0 then .nan else if 0 < a then .posInf else .negInf
  | .num a, .negInf => if a = 0 then .nan else if 0 < a then .negInf else .posInf
  | .posInf, .posInf => .posInf
  | .posInf, .negInf => .negInf
  | .negInf, .posInf => .negInf
  | .negInf, .negInf => .posInf

/-- `Number(response.headers["content-length"])`: `Number(undefined)` is
`NaN` when the header is absent, the numeric value when present. -/
def parseContentLength : Option Nat → JSNum
  | none => .nan
  | some n => .num n

/-- An event emitted by the `request.get(url)` request object: the
`response` event (status code and optional declared content-length), a body
`data` chunk (also piped to the destination file), the body stream's own
end-of-data signal, the request library's `complete` convenience event, and
the `error` event. -/
inductive FetchEvent
  | response (status : Nat) (contentLength : Option Nat)
  | data (chunk : String)
  | endOfBody
  | complete
  | error (e : String)
deriving Repr, DecidableEq

/-- The state of one `downloadFile` call: the `contentLength` variable
(initialised to `0`, reassigned on the `response` event), the `downloaded`
byte counter, the bytes piped to the destination file so far, the list of
percentage values surfaced by the per-chunk progress log, and the promise's
settlement (`none` = pending). -/
structure FetchState where
  contentLength : JSNum
  downloaded : Nat
  fileContents : String
  reports : List JSNum
  settled : Option (Except String Unit)

/-- `let contentLength = 0; let downloaded = 0;`, an empty destination file
and a pending promise. -/
def initFetchState : FetchState :=
  { contentLength := .num 0, downloaded := 0, fileContents := "", reports := [],
    settled := none }

/-- One event handled by `downloadFile`'s listeners:
`fabReq.on("response", ...)` stores `Number(headers["content-length"])`;
`fabReq.on("data", chunk => ...)` advances `downloaded` and computes
`(downloaded / contentLength) * 100` (the chunk is also piped to the file by
`fabReq.pipe(fs.createWriteStream(to))`, regardless of the status code);
the body's end-of-data signal has no registered listener;
`fabReq.on("complete", () => resolve())`;
`fabReq.on("error", err => reject(err))`. -/
def fetchStep (s : FetchState) (ev : FetchEvent) : FetchState :=
  match ev with
  | .response _ cl => { s with contentLength := parseContentLength cl }
  | .data chunk =>
    let downloaded := s.downloaded + chunk.length
    let pct := jsMul (jsDiv (.num downloaded) s.contentLength) (.num 100)
    { s with downloaded := downloaded,
             fileContents := s.fileContents ++ chunk,
             reports := s.reports ++ [pct] }
  | .endOfBody => s
  | .complete =>
    match s.settled with
    | none => { s with settled := some (Except.ok ()) }
    | some _ => s
  | .error e =>
    match s.settled with
    | none => { s with settled := some (Except.error e) }
    | some _ => s

/-- Run the `downloadFile` listeners over a trace of request events. -/
def runFetchAux (s : FetchState) : List FetchEvent → FetchState
  | [] => s
  | ev :: rest => runFetchAux (fetchStep s ev) rest

/-- The final state of one `downloadFile` call after the request object
emitted the given trace of events. -/
def runFetch (tr : List FetchEvent) : FetchState :=
  runFetchAux initFetchState tr

/-- The settlement dictated purely by the `complete`/`error` listeners: the
first of those two events in the trace settles the promise. -/
def fetchSettle : List FetchEvent → Option (Except String Unit)
  | [] => none
  | FetchEvent.complete :: _ => some (Except.ok ())
  | FetchEvent.error e :: _ => some (Except.error e)
  | _ :: rest => fetchSettle rest

/-- `true` when no `response` event of the trace declares a content-length
header. -/
def noContentLength : List FetchEvent → Bool
  | [] => true
  | FetchEvent.response _ (some _) :: _ => false
  | _ :: rest => noContentLength rest

/-- The percentage values `downloadFile` surfaces while consuming the given
chunks, starting from `d0` bytes already downloaded, with declared length
`cl`: for each chunk, `((d0 + bytes so far) / cl) * 100`. -/
def progressList (d0 : Nat) (cl : JSNum) : List String → List JSNum
  | [] => []
  | c :: rest =>
    jsMul (jsDiv (.num (d0 + c.length)) cl) (.num 100)
      :: progressList (d0 + c.length) cl rest

/-! ## Centralized termination: the `exit` helper -/

/-- The optional `message` argument of `exit`: a plain string or an `Error`
object carrying a `.message` string. -/
inductive MessageV
  | str (s : String)
  | errObj (message : String)
deriving Repr, DecidableEq

/-- JavaScript truthiness of the `message` value: the empty string is falsy,
every `Error` object is truthy. -/
def messageTruthy : MessageV → Bool
  | .str s => s != ""
  | .errObj _ => true

/-- `typeof message === "string" ? message : message.message`. -/
def messageString : MessageV → String
  | .str s => s
  | .errObj m => m

/-- The observable effect of one `exit(code, message?)` call: what was
written to the informational console stream (`console.info` receives the
original message value), what was written to the error console stream
(`console.error` receives the extracted message text), and the numeric code
passed to the final process-termination call. -/
structure ExitEffect where
  infoLog : List MessageV
  errLog : List String
  code : Int
deriving Repr, DecidableEq

/-- The `exit` helper: if a (truthy) message is given, route it —
`console.info(message)` when `code === 0`, `console.error(messageString)`
otherwise — then terminate the process with `code`. -/
def exit (code : Int) (message : Option MessageV) : ExitEffect :=
  match message with
  | some m =>
    if messageTruthy m then
      if code = 0 then { infoLog := [m], errLog := [], code := code }
      else { infoLog := [], errLog := [messageString m], code := code }
    else { infoLog := [], errLog := [], code := code }
  | none => { infoLog := [], errLog := [], code := code }

/-! ## JSON values, the `tag_name` validators, and the release-tag lookups -/

/-- A JavaScript runtime value as relevant to the `tag_name` validators:
`null`, `undefined`, booleans, numbers, strings, and objects (a field
association list). -/
inductive JSValue
  | vNull
  | vUndefined
  | vBool (b : Bool)
  | vNum (q : Rat)
  | vStr (s : String)
  | vObj (fields : List (String × JSValue))
deriving Repr

/-- The JavaScript `typeof` operator; note `typeof null === "object"`. -/
def typeofStr : JSValue → String
  | .vNull => "object"
  | .vUndefined => "undefined"
  | .vBool _ => "boolean"
  | .vNum _ => "number"
  | .vStr _ => "string"
  | .vObj _ => "object"

/-- A thrown JavaScript error: a plain `Error(...)` or a `TypeError`. -/
inductive JSError
  | error (message : String)
  | typeError (message : String)
deriving Repr, DecidableEq

/-- JavaScript property access `value.name`: throws a `TypeError` on `null`
and `undefined`, yields the field (or `undefined` when absent) on objects,
and `undefined` on the remaining primitives. -/
def getProp (v : JSValue) (name : String) : Except JSError JSValue :=
  match v with
  | .vNull => .error (.typeError ("Cannot read property " ++ name ++ " of null"))
  | .vUndefined =>
    .error (.typeError ("Cannot read property " ++ name ++ " of undefined"))
  | .vObj fs => .ok ((fs.lookup name).getD .vUndefined)
  | _ => .ok .vUndefined

mutual

/-- `JSON.stringify`, as used to build the validators' error message. -/
def jsonStringify : JSValue → String
  | .vNull => "null"
  | .vUndefined => "undefined"
  | .vBool b => if b then "true" else "false"
  | .vNum q => toString q
  | .vStr s => "\"" ++ s ++ "\""
  | .vObj fs => "\x7b" ++ String.intercalate "," (jsonFields fs) ++ "\x7d"

/-- The rendered `"key":value` fields of an object, in order. -/
def jsonFields : List (String × JSValue) → List String
  | [] => []
  | (k, v) :: rest => ("\"" ++ k ++ "\":" ++ jsonStringify v) :: jsonFields rest

end

/-- The module-level `assertHasTagName`:
`if (!(typeof value === "object" && typeof (value as any).tag_name === "string"))
   throw Error(`Property tag_name not found in ${JSON.stringify(value)}`)`.
The `&&` short-circuits, so the property access (which throws a `TypeError`
on `null`) only happens when `typeof value === "object"`. -/
def assertHasTagName (value : JSValue) : Except JSError Unit :=
  if typeofStr value == "object" then
    match getProp value "tag_name" with
    | .error e => .error e
    | .ok p =>
      if typeofStr p == "string" then .ok ()
      else .error (.error ("Property tag_name not found in " ++ jsonStringify value))
  else .error (.error ("Property tag_name not found in " ++ jsonStringify value))

/-- The textually identical copy of `assertHasTagName` nested inside
`getFabrikateVersion`. -/
def getFabrikateVersionAssert (value : JSValue) : Except JSError Unit :=
  if typeofStr value == "object" then
    match getProp value "tag_name" with
    | .error e => .error e
    | .ok p =>
      if typeofStr p == "string" then .ok ()
      else .error (.error ("Property tag_name not found in " ++ jsonStringify value))
  else .error (.error ("Property tag_name not found in " ++ jsonStringify value))

/-- The Fabrikate releases URL used by both `getFabrikateVersion` and the
`get_fab_version` command's call to `getLatestGitTag`. -/
def fabReleases : String :=
  "https://api.github.com/repos/microsoft/fabrikate/releases/latest"

/-- The resolved value of one `axios.get(url)` call: a status code and a
parsed JSON body. -/
structure AxiosResponse where
  status : Nat
  data : JSValue

/-- How one of the release-tag lookups ends: returns the tag value, calls
`exit(code, msg)` (which never returns), or throws. -/
inductive RunOutcome
  | ok (tag : JSValue)
  | exited (code : Int) (msg : Option String)
  | threw (e : JSError)

/-- `getLatestGitTag(releasesPage)` applied to a resolved response: exits 1
on a non-200 status, otherwise asserts the `tag_name` shape (propagating the
throw) and returns `data.tag_name`. -/
def getLatestGitTag (releasesPage : String) (resp : AxiosResponse) : RunOutcome :=
  if resp.status ≠ 200 then
    .exited 1 (some ("Non-200 (" ++ toString resp.status
      ++ ") response returned from " ++ releasesPage))
  else
    match assertHasTagName resp.data with
    | .error e => .threw e
    | .ok _ =>
      match getProp resp.data "tag_name" with
      | .error e => .threw e
      | .ok v => .ok v

/-- `getFabrikateVersion()` applied to a resolved response: the same
non-200/assert/return logic inside `.then`, using the nested validator copy,
followed by a `.catch` that converts any thrown error into
`exit(1, "Error fetching releases page from ...")`. -/
def getFabrikateVersion (resp : AxiosResponse) : RunOutcome :=
  let latestVersion :=
    if resp.status ≠ 200 then
      RunOutcome.exited 1 (some ("Non-200 (" ++ toString resp.status
        ++ ") response returned from " ++ fabReleases))
    else
      match getFabrikateVersionAssert resp.data with
      | .error e => RunOutcome.threw e
      | .ok _ =>
        match getProp resp.data "tag_name" with
        | .error e => RunOutcome.threw e
        | .ok v => RunOutcome.ok v
  match latestVersion with
  | .threw _ => .exited 1 (some ("Error fetching releases page from " ++ fabReleases))
  | x => x

/-- The set of values `assertHasTagName` accepts: non-null objects whose
`tag_name` field is a string. -/
def hasStringTagName : JSValue → Bool
  | .vObj fs =>
    match fs.lookup "tag_name" with
    | some (.vStr _) => true
    | _ => false
  | _ => false

end BedBuild

namespace BedBuild

theorem spawnStep_settled_some (s : SpawnState) (ev : ChildEvent)
    (x : Except String SpawnResult) (h : s.settled = some x) :
    (spawnStep s ev).settled = some x := by
  cases ev <;> simp [spawnStep, h]

theorem runSpawnAux_settled_some (tr : List ChildEvent) (s : SpawnState)
    (x : Except String SpawnResult) (h : s.settled = some x) :
    (runSpawnAux s tr).settled = some x := by
  induction tr generalizing s with
  | nil => exact h
  | cons ev rest ih => exact ih _ (spawnStep_settled_some s ev x h)

theorem runSpawnAux_append (a b : List ChildEvent) (s : SpawnState) :
    runSpawnAux s (a ++ b) = runSpawnAux (runSpawnAux s a) b := by
  induction a generalizing s with
  | nil => rfl
  | cons ev rest ih => simp [runSpawnAux, ih]

theorem runSpawnAux_pending (tr : List ChildEvent) (s : SpawnState)
    (hs : s.settled = none) (hf : firstSettle tr = none) :
    (runSpawnAux s tr).settled = none := by
  induction tr generalizing s with
  | nil => exact hs
  | cons ev rest ih =>
    cases ev with
    | out d => exact ih _ hs hf
    | err d => exact ih _ hs hf
    | error e => simp [firstSettle] at hf
    | exited c => simp [firstSettle] at hf

theorem runSpawnAux_reject (tr : List ChildEvent) (s : SpawnState) (e : String)
    (hs : s.settled = none) (hf : firstSettle tr = some (Sum.inl e)) :
    (runSpawnAux s tr).settled = some (Except.error e) := by
  induction tr generalizing s with
  | nil => simp [firstSettle] at hf
  | cons ev rest ih =>
    cases ev with
    | out d => exact ih _ hs hf
    | err d => exact ih _ hs hf
    | error e2 =>
      simp [firstSettle] at hf
      subst hf
      exact runSpawnAux_settled_some rest _ _ (by simp [spawnStep, hs])
    | exited c => simp [firstSettle] at hf

theorem runSpawnAux_resolve (tr : List ChildEvent) (s : SpawnState)
    (co : Option Int) (hs : s.settled = none)
    (hf : firstSettle tr = some (Sum.inr co)) :
    ∃ r, (runSpawnAux s tr).settled = some (Except.ok r) ∧ r.code = co.getD s.code := by
  induction tr generalizing s with
  | nil => simp [firstSettle] at hf
  | cons ev rest ih =>
    cases ev with
    | out d =>
      obtain ⟨r, h1, h2⟩ :=
        ih (spawnStep s (ChildEvent.out d)) (by simp [spawnStep, hs]) hf
      exact ⟨r, h1, by simpa [spawnStep] using h2⟩
    | err d =>
      obtain ⟨r, h1, h2⟩ :=
        ih (spawnStep s (ChildEvent.err d)) (by simp [spawnStep, hs]) hf
      exact ⟨r, h1, by simpa [spawnStep] using h2⟩
    | error e => simp [firstSettle] at hf
    | exited c =>
      simp [firstSettle] at hf
      subst hf
      refine ⟨SpawnResult.mk s.stdout s.stderr s.stdCombined (c.getD s.code), ?_, rfl⟩
      exact runSpawnAux_settled_some rest _ _ (by simp [spawnStep, hs])

theorem strConcat_length (l : List String) :
    (strConcat l).length = (l.map String.length).sum := by
  induction l with
  | nil => rfl
  | cons s rest ih => simp [strConcat, String.length_append, ih]

theorem allConcat_length (chunks : List (Bool × String)) :
    (allConcat chunks).length = (outConcat chunks).length + (errConcat chunks).length := by
  induction chunks with
  | nil => rfl
  | cons p rest ih =>
    obtain ⟨b, d⟩ := p
    cases b <;>
      simp [allConcat, outConcat, errConcat, strConcat, String.length_append] at ih ⊢ <;>
      omega

theorem runSpawnAux_data (chunks : List (Bool × String)) (s : SpawnState) :
    runSpawnAux s (chunks.map dataEvent) =
      { stdout := s.stdout ++ outConcat chunks,
        stderr := s.stderr ++ errConcat chunks,
        stdCombined := s.stdCombined ++ allConcat chunks,
        code := s.code, settled := s.settled } := by
  induction chunks generalizing s with
  | nil =>
    simp [runSpawnAux, outConcat, errConcat, allConcat, strConcat, String.append_empty]
  | cons p rest ih =>
    obtain ⟨b, d⟩ := p
    cases b <;>
      simp [runSpawnAux, dataEvent, spawnStep, ih, outConcat, errConcat, allConcat,
        strConcat, String.append_assoc]

/-- C1: the spawn call rejects if and only if the child-process handle's
launch `error` event fires before any `exit` event (launch failure); and when
the process starts and exits with code `c` (the `exit` event settles first,
e.g. with a nonzero code), the call resolves with a result carrying exactly
`c` and is never a rejection — launch failure and nonzero exit are always
distinguishable at the call site. -/
theorem spawn_reject_iff_launch_error (tr : List ChildEvent) :
    ((∃ e, runSpawn tr = some (Except.error e)) ↔
      (∃ e, firstSettle tr = some (Sum.inl e)))
    ∧ (∀ c : Int, firstSettle tr = some (Sum.inr (some c)) →
        (∃ r, runSpawn tr = some (Except.ok r) ∧ r.code = c)
        ∧ ¬∃ e, runSpawn tr = some (Except.error e)) := by
  constructor
  · constructor
    · rintro ⟨e, he⟩
      rcases hf : firstSettle tr with _ | f
      · rw [runSpawn, runSpawnAux_pending tr initSpawnState rfl hf] at he
        exact absurd he (by simp)
      · rcases f with e2 | co
        · exact ⟨e2, rfl⟩
        · obtain ⟨r, h1, _⟩ := runSpawnAux_resolve tr initSpawnState co rfl hf
          rw [runSpawn, h1] at he
          exact absurd he (by simp)
    · rintro ⟨e, hf⟩
      exact ⟨e, runSpawnAux_reject tr initSpawnState e rfl hf⟩
  · intro c hf
    obtain ⟨r, h1, h2⟩ := runSpawnAux_resolve tr initSpawnState (some c) rfl hf
    refine ⟨⟨r, h1, h2⟩, ?_⟩
    rintro ⟨e, he⟩
    rw [runSpawn, h1] at he
    exact absurd he (by simp)

/-- C1 witness: on the trace consisting of a single launch `error` event
(e.g. executable not found), `spawn` rejects. -/
theorem spawn_reject_iff_launch_error_witness :
    ∃ e, runSpawn [ChildEvent.error "spawn ENOENT"] = some (Except.error e) :=
  (spawn_reject_iff_launch_error [ChildEvent.error "spawn ENOENT"]).1.mpr
    ⟨"spawn ENOENT", rfl⟩

/-- C2: when the process terminates with exit code `c`, `spawn` resolves with
a result whose `code` field equals exactly `c`; when the platform reports no
numeric exit code (`exit` event with a null code), the resolved `code` field
is `0`; and the call stays pending until the handle reports termination (or a
launch error): a trace with neither event leaves the promise unsettled. -/
theorem spawn_exit_code (tr : List ChildEvent) :
    (∀ c : Int, firstSettle tr = some (Sum.inr (some c)) →
      ∃ r, runSpawn tr = some (Except.ok r) ∧ r.code = c)
    ∧ (firstSettle tr = some (Sum.inr none) →
      ∃ r, runSpawn tr = some (Except.ok r) ∧ r.code = 0)
    ∧ (firstSettle tr = none → runSpawn tr = none) := by
  refine ⟨fun c hf => ?_, fun hf => ?_, fun hf => ?_⟩
  · exact runSpawnAux_resolve tr initSpawnState (some c) rfl hf
  · exact runSpawnAux_resolve tr initSpawnState none rfl hf
  · exact runSpawnAux_pending tr initSpawnState rfl hf

/-- C2 witness: a process that emits one stdout chunk and exits with a null
code resolves with `code = 0`. -/
theorem spawn_exit_code_witness :
    ∃ r, runSpawn [ChildEvent.out "a", ChildEvent.exited none] = some (Except.ok r)
      ∧ r.code = 0 :=
  (spawn_exit_code [ChildEvent.out "a", ChildEvent.exited none]).2.1 rfl

/-- C3: for every arrival-ordered sequence of tagged data chunks followed by
the `exit` event, the resolved result's `stdout` is the concatenation of the
stdout chunks in arrival order, `stderr` the concatenation of the stderr
chunks in arrival order, and `stdCombined` the interleaving of all chunks
from both streams in the exact order received (the concatenation of the full
arrival sequence), whose length is the sum of the lengths of `stdout` and
`stderr` — not a concatenation of the two finished streams. -/
theorem spawn_combined_interleaving (chunks : List (Bool × String))
    (c : Option Int) (rest : List ChildEvent) :
    runSpawn (chunks.map dataEvent ++ ChildEvent.exited c :: rest) =
      some (Except.ok
        (SpawnResult.mk (outConcat chunks) (errConcat chunks) (allConcat chunks)
          (c.getD 0)))
    ∧ (allConcat chunks).length = (outConcat chunks).length + (errConcat chunks).length := by
  refine ⟨?_, allConcat_length chunks⟩
  rw [runSpawn, runSpawnAux_append, runSpawnAux_data]
  show (runSpawnAux (spawnStep _ (ChildEvent.exited c)) rest).settled = _
  refine runSpawnAux_settled_some rest _ _ ?_
  simp [spawnStep, initSpawnState, String.empty_append]

theorem str_length_pos (s : String) (h : s ≠ "") : 0 < s.length := by
  cases s with
  | mk data =>
    cases data with
    | nil => exact absurd rfl h
    | cons c cs => simp [String.length]

theorem fetchStep_settled_some (s : FetchState) (ev : FetchEvent)
    (x : Except String Unit) (h : s.settled = some x) :
    (fetchStep s ev).settled = some x := by
  cases ev <;> simp [fetchStep, h]

theorem runFetchAux_settled_some (tr : List FetchEvent) (s : FetchState)
    (x : Except String Unit) (h : s.settled = some x) :
    (runFetchAux s tr).settled = some x := by
  induction tr generalizing s with
  | nil => exact h
  | cons ev rest ih => exact ih _ (fetchStep_settled_some s ev x h)

theorem runFetchAux_append (a b : List FetchEvent) (s : FetchState) :
    runFetchAux s (a ++ b) = runFetchAux (runFetchAux s a) b := by
  induction a generalizing s with
  | nil => rfl
  | cons ev rest ih => simp [runFetchAux, ih]

theorem runFetchAux_settle (tr : List FetchEvent) (s : FetchState)
    (hs : s.settled = none) :
    (runFetchAux s tr).settled = fetchSettle tr := by
  induction tr generalizing s with
  | nil => exact hs
  | cons ev rest ih =>
    cases ev with
    | response st cl => exact ih _ hs
    | data c => exact ih _ hs
    | endOfBody => exact ih _ hs
    | complete =>
      show (runFetchAux (fetchStep s FetchEvent.complete) rest).settled = _
      exact runFetchAux_settled_some rest _ _ (by simp [fetchStep, hs])
    | error e =>
      show (runFetchAux (fetchStep s (FetchEvent.error e)) rest).settled = _
      exact runFetchAux_settled_some rest _ _ (by simp [fetchStep, hs])

theorem runFetchAux_data (chunks : List String) (s : FetchState) :
    runFetchAux s (chunks.map FetchEvent.data) =
      { contentLength := s.contentLength,
        downloaded := s.downloaded + (chunks.map String.length).sum,
        fileContents := s.fileContents ++ strConcat chunks,
        reports := s.reports ++ progressList s.downloaded s.contentLength chunks,
        settled := s.settled } := by
  induction chunks generalizing s with
  | nil => simp [runFetchAux, strConcat, progressList, String.append_empty]
  | cons c rest ih =>
    simp only [List.map_cons, runFetchAux, fetchStep, ih, strConcat, progressList]
    simp [String.append_assoc, Nat.add_assoc]

theorem progressList_getLast (cl : JSNum) (chunks : List String) :
    ∀ d0 : Nat, chunks ≠ [] →
      (progressList d0 cl chunks).getLast? =
        some (jsMul (jsDiv (.num (d0 + (chunks.map String.length).sum)) cl) (.num 100)) := by
  induction chunks with
  | nil =>
    intro d0 h
    exact absurd rfl h
  | cons c rest ih =>
    intro d0 _
    rcases rest with _ | ⟨c2, rest2⟩
    · simp [progressList]
    · have ih2 := ih (d0 + c.length) (by simp)
      simp only [progressList] at ih2 ⊢
      rw [List.getLast?_cons_cons, ih2]
      have harith : (((d0 + c.length : Nat) : Rat)
            + ((List.map String.length (c2 :: rest2)).sum : Rat))
          = ((d0 : Rat) + ((List.map String.length (c :: c2 :: rest2)).sum : Rat)) := by
        push_cast [List.map_cons, List.sum_cons]
        ring
      rw [harith]

theorem pct_sentinel (d : Nat) (cl : JSNum)
    (h : cl = JSNum.num 0 ∨ cl = JSNum.nan) :
    jsMul (jsDiv (.num d) cl) (.num 100) = JSNum.nan
    ∨ jsMul (jsDiv (.num d) cl) (.num 100) = JSNum.posInf := by
  rcases h with h | h <;> subst h
  · by_cases hd : (d : Rat) = 0
    · left
      norm_num [jsDiv, jsMul, hd]
    · right
      have hd2 : 0 < (d : Rat) := lt_of_le_of_ne (by positivity) (Ne.symm hd)
      norm_num [jsDiv, jsMul, hd, hd2]
  · left
    norm_num [jsDiv, jsMul]

theorem runFetchAux_noCL (tr : List FetchEvent) (s : FetchState)
    (h : noContentLength tr = true)
    (hcl : s.contentLength = JSNum.num 0 ∨ s.contentLength = JSNum.nan)
    (hr : ∀ p ∈ s.reports, p = JSNum.nan ∨ p = JSNum.posInf) :
    ∀ p ∈ (runFetchAux s tr).reports, p = JSNum.nan ∨ p = JSNum.posInf := by
  induction tr generalizing s with
  | nil => exact hr
  | cons ev rest ih =>
    cases ev with
    | response st cl =>
      cases cl with
      | none =>
        refine ih (fetchStep s (FetchEvent.response st none)) ?_ ?_ ?_
        · simpa [noContentLength] using h
        · simp [fetchStep, parseContentLength]
        · simpa [fetchStep] using hr
      | some n => simp [noContentLength] at h
    | data c =>
      refine ih (fetchStep s (FetchEvent.data c)) ?_ ?_ ?_
      · simpa [noContentLength] using h
      · simpa [fetchStep] using hcl
      · intro p hp
        simp only [fetchStep, List.mem_append, List.mem_singleton] at hp
        rcases hp with hp | hp
        · exact hr p hp
        · subst hp
          exact pct_sentinel (s.downloaded + c.length) s.contentLength hcl
    | endOfBody =>
      refine ih (fetchStep s FetchEvent.endOfBody) ?_ hcl hr
      simpa [noContentLength] using h
    | complete =>
      have hstep : ∀ p ∈ (fetchStep s FetchEvent.complete).reports,
          p = JSNum.nan ∨ p = JSNum.posInf := by
        intro p hp
        refine hr p ?_
        rcases hset : s.settled with _ | x <;> simpa [fetchStep, hset] using hp
      have hcl2 : (fetchStep s FetchEvent.complete).contentLength = JSNum.num 0
          ∨ (fetchStep s FetchEvent.complete).contentLength = JSNum.nan := by
        rcases hset : s.settled with _ | x <;> simpa [fetchStep, hset] using hcl
      refine ih _ ?_ hcl2 hstep
      simpa [noContentLength] using h
    | error e =>
      have hstep : ∀ p ∈ (fetchStep s (FetchEvent.error e)).reports,
          p = JSNum.nan ∨ p = JSNum.posInf := by
        intro p hp
        refine hr p ?_
        rcases hset : s.settled with _ | x <;> simpa [fetchStep, hset] using hp
      have hcl2 : (fetchStep s (FetchEvent.error e)).contentLength = JSNum.num 0
          ∨ (fetchStep s (FetchEvent.error e)).contentLength = JSNum.nan := by
        rcases hset : s.settled with _ | x <;> simpa [fetchStep, hset] using hcl
      refine ih _ ?_ hcl2 hstep
      simpa [noContentLength] using h

/-- C4: `downloadFile` does NOT tie completion to the body stream's own
end-of-data signal — it resolves only on the request library's `complete`
convenience event.  On a transfer whose body stream signals end-of-data
without the library emitting `complete`, the call is still pending; appending
the `complete` event is what settles it. -/
theorem downloadFile_ignores_end_of_body :
    (runFetch [FetchEvent.response 200 (some 1), FetchEvent.data "x",
      FetchEvent.endOfBody]).settled = none
    ∧ (runFetch [FetchEvent.response 200 (some 1), FetchEvent.data "x",
      FetchEvent.endOfBody, FetchEvent.complete]).settled = some (Except.ok ()) :=
  ⟨rfl, rfl⟩

/-- C5 counterexample: fetching a URL that answers HTTP 404 with body
`"Not Found"` leaves the destination file containing exactly that error
payload — the claim that the file is not left containing a misleading
200-style payload is false: the call resolves and the file holds the 404
body, which is nonempty. -/
theorem downloadFile_404_counterexample :
    (runFetch [FetchEvent.response 404 (some 9), FetchEvent.data "Not Found",
      FetchEvent.endOfBody, FetchEvent.complete]).settled = some (Except.ok ())
    ∧ (runFetch [FetchEvent.response 404 (some 9), FetchEvent.data "Not Found",
      FetchEvent.endOfBody, FetchEvent.complete]).fileContents = "Not Found"
    ∧ (runFetch [FetchEvent.response 404 (some 9), FetchEvent.data "Not Found",
      FetchEvent.endOfBody, FetchEvent.complete]).fileContents ≠ "" :=
  ⟨rfl, by decide, by decide⟩

/-- C5 amended: `downloadFile` enforces no status-code policy at all — for
every status code (404 included), the body is piped to the destination file
and the call resolves once the library's `complete` event fires, so the
destination file is left containing exactly the response body (for an error
status, the error payload). -/
theorem downloadFile_no_status_policy (st : Nat) (cl : Option Nat)
    (chunks : List String) :
    (runFetch (FetchEvent.response st cl :: chunks.map FetchEvent.data
        ++ [FetchEvent.complete])).settled = some (Except.ok ())
    ∧ (runFetch (FetchEvent.response st cl :: chunks.map FetchEvent.data
        ++ [FetchEvent.complete])).fileContents = strConcat chunks := by
  have hstep : runFetch (FetchEvent.response st cl :: chunks.map FetchEvent.data
        ++ [FetchEvent.complete])
      = runFetchAux (runFetchAux (fetchStep initFetchState
          (FetchEvent.response st cl)) (chunks.map FetchEvent.data))
          [FetchEvent.complete] := by
    rw [runFetch]
    show runFetchAux (fetchStep initFetchState (FetchEvent.response st cl))
      (chunks.map FetchEvent.data ++ [FetchEvent.complete]) = _
    rw [runFetchAux_append]
  rw [hstep, runFetchAux_data]
  constructor <;>
    simp [runFetchAux, fetchStep, initFetchState, String.empty_append]

/-- C6: for every trace whose `response` event declares no content-length,
every percentage value the per-chunk computation surfaces is a defined
non-crashing sentinel (`NaN`, or `Infinity` for chunks arriving before the
`response` event while `contentLength` is still `0`), and the settlement of
the call is exactly the one dictated by the `complete`/`error` listeners —
no division-by-zero or NaN propagates to a crash of the fetch. -/
theorem downloadFile_no_content_length_sentinel (tr : List FetchEvent)
    (h : noContentLength tr = true) :
    (∀ p ∈ (runFetch tr).reports, p = JSNum.nan ∨ p = JSNum.posInf)
    ∧ (runFetch tr).settled = fetchSettle tr :=
  ⟨runFetchAux_noCL tr initFetchState h (Or.inl rfl) (by simp [initFetchState]),
    runFetchAux_settle tr initFetchState rfl⟩

/-- C6 witness: a chunked 200 response with no content-length header still
completes, with settlement as dictated by the `complete` event. -/
theorem downloadFile_no_content_length_sentinel_witness :
    (runFetch [FetchEvent.response 200 none, FetchEvent.data "ab",
      FetchEvent.complete]).settled
    = fetchSettle [FetchEvent.response 200 none, FetchEvent.data "ab",
      FetchEvent.complete] :=
  (downloadFile_no_content_length_sentinel
    [FetchEvent.response 200 none, FetchEvent.data "ab", FetchEvent.complete]
    rfl).2

/-- C7: for every download whose `response` declares content-length `L` and
whose (nonempty, as Node data events are) chunks total exactly `L` bytes, the
progress value surfaced on the final chunk is exactly `100` (so `toFixed(2)`
renders `100.00`), and the call resolves on completion. -/
theorem downloadFile_final_progress_100 (st L : Nat) (chunks : List String)
    (hne : chunks ≠ []) (hblk : ∀ c ∈ chunks, c ≠ "")
    (hsum : (chunks.map String.length).sum = L) :
    (runFetch (FetchEvent.response st (some L) :: chunks.map FetchEvent.data
        ++ [FetchEvent.complete])).reports.getLast? = some (JSNum.num 100)
    ∧ (runFetch (FetchEvent.response st (some L) :: chunks.map FetchEvent.data
        ++ [FetchEvent.complete])).settled = some (Except.ok ()) := by
  have hL : 0 < L := by
    rcases chunks with _ | ⟨c, rest⟩
    · exact absurd rfl hne
    · have hc : 0 < c.length := str_length_pos c (hblk c (by simp))
      simp only [List.map_cons, List.sum_cons] at hsum
      omega
  have hstep : runFetch (FetchEvent.response st (some L) :: chunks.map FetchEvent.data
        ++ [FetchEvent.complete])
      = runFetchAux (runFetchAux (fetchStep initFetchState
          (FetchEvent.response st (some L))) (chunks.map FetchEvent.data))
          [FetchEvent.complete] := by
    rw [runFetch]
    show runFetchAux (fetchStep initFetchState (FetchEvent.response st (some L)))
      (chunks.map FetchEvent.data ++ [FetchEvent.complete]) = _
    rw [runFetchAux_append]
  have hfinal : jsMul (jsDiv (.num ((0 : Nat) + (chunks.map String.length).sum))
      (parseContentLength (some L))) (.num 100) = JSNum.num 100 := by
    rw [hsum]
    have hLQ : (L : Rat) ≠ 0 := by
      exact_mod_cast Nat.pos_iff_ne_zero.mp hL
    simp only [parseContentLength, jsDiv, Nat.cast_zero, zero_add, hLQ, if_neg hLQ,
      div_self hLQ, jsMul]
    norm_num
  rw [hstep, runFetchAux_data]
  constructor
  · show (fetchStep _ FetchEvent.complete).reports.getLast? = _
    simp only [fetchStep, initFetchState, List.nil_append]
    rw [progressList_getLast (parseContentLength (some L)) chunks 0 hne, hfinal]
  · show (runFetchAux (fetchStep _ FetchEvent.complete) []).settled = _
    simp [runFetchAux, fetchStep, initFetchState]

/-- C7 witness: content-length 2, one 2-byte chunk — the final (only)
progress value is exactly 100. -/
theorem downloadFile_final_progress_100_witness :
    (runFetch (FetchEvent.response 200 (some 2) :: ["ab"].map FetchEvent.data
        ++ [FetchEvent.complete])).reports.getLast? = some (JSNum.num 100) :=
  (downloadFile_final_progress_100 200 2 ["ab"] (by decide) (by decide)
    (by decide)).1

/-- C8 counterexample: the claim fails for the present-but-falsy message
`""` — `exit(1, "")` is a call with a message present and a nonzero code,
yet nothing is written to the error stream (`if (message)` treats the empty
string as absent); the process still terminates with code 1. -/
theorem exit_empty_message_counterexample :
    (exit 1 (some (MessageV.str ""))).errLog
        ≠ [messageString (MessageV.str "")]
    ∧ (exit 1 (some (MessageV.str ""))).errLog = []
    ∧ (exit 1 (some (MessageV.str ""))).code = 1 :=
  ⟨by decide, rfl, rfl⟩

/-- C8 amended: for every call `exit(code, message)` with a truthy message
present (a nonempty string or an `Error` object): if `code` is `0` the
message value is written to the informational stream, and if `code` is
nonzero the message text is written to the error stream; in both cases the
process then terminates with exactly that code (and it does so for every
call, message or not).  An empty-string message is treated as absent. -/
theorem exit_routes_message (code : Int) (m : MessageV)
    (h : messageTruthy m = true) :
    (code = 0 →
      exit code (some m) = { infoLog := [m], errLog := [], code := code })
    ∧ (code ≠ 0 →
      exit code (some m) = { infoLog := [], errLog := [messageString m], code := code })
    ∧ ∀ msg : Option MessageV, (exit code msg).code = code := by
  refine ⟨fun h0 => ?_, fun h0 => ?_, fun msg => ?_⟩
  · simp [exit, h, h0]
  · simp [exit, h, h0]
  · rcases msg with _ | m2
    · rfl
    · by_cases ht : messageTruthy m2 = true <;> by_cases h0 : code = 0 <;>
        simp [exit, ht, h0]

/-- C8 witness: `exit(1, "boom")` writes the message text to the error
stream and terminates with code 1. -/
theorem exit_routes_message_witness :
    exit 1 (some (MessageV.str "boom"))
      = { infoLog := [], errLog := ["boom"], code := 1 } :=
  (exit_routes_message 1 (MessageV.str "boom") rfl).2.1 (by decide)

/-- C9: the module-level `assertHasTagName` and the copy nested inside
`getFabrikateVersion` are extensionally equal (same accepted inputs, and on
rejection the very same error value, message included); consequently, for
every resolved response, `getFabrikateVersion` succeeds with a tag exactly
when `getLatestGitTag` applied to the Fabrikate releases URL succeeds with
that same tag. -/
theorem validators_and_success_agree :
    (∀ v, getFabrikateVersionAssert v = assertHasTagName v)
    ∧ (∀ (resp : AxiosResponse) (tag : JSValue),
        getFabrikateVersion resp = RunOutcome.ok tag
          ↔ getLatestGitTag fabReleases resp = RunOutcome.ok tag) := by
  constructor
  · intro v
    rfl
  · intro resp tag
    have heq : getFabrikateVersionAssert resp.data = assertHasTagName resp.data := rfl
    by_cases hst : resp.status = 200
    · simp only [getFabrikateVersion, getLatestGitTag, hst, heq]
      norm_num
      cases hA : assertHasTagName resp.data with
      | error e => simp
      | ok u =>
        cases hP : getProp resp.data "tag_name" with
        | error e => simp
        | ok v => simp
    · simp [getFabrikateVersion, getLatestGitTag, hst]

/-- C9 witness: on a 200 response whose body is `{ tag_name: "v1.0" }`,
`getFabrikateVersion` succeeds with the same tag `getLatestGitTag` returns. -/
theorem validators_and_success_agree_witness :
    getFabrikateVersion (AxiosResponse.mk 200 (JSValue.vObj
        [("tag_name", JSValue.vStr "v1.0")]))
      = RunOutcome.ok (JSValue.vStr "v1.0") :=
  (validators_and_success_agree.2
    (AxiosResponse.mk 200 (JSValue.vObj [("tag_name", JSValue.vStr "v1.0")]))
    (JSValue.vStr "v1.0")).mpr rfl

/-- C10: `assertHasTagName` returns normally exactly on non-null objects
whose `tag_name` field is a string; it throws on every other input; and on
the input `null` (which passes the `typeof value === "object"` test) the
throw is the `TypeError` raised by the unguarded property access, never the
descriptive `Property tag_name not found` error built for other invalid
inputs. -/
theorem assertHasTagName_domain :
    (∀ v, assertHasTagName v = Except.ok () ↔ hasStringTagName v = true)
    ∧ (∀ v, hasStringTagName v = false → ∃ e, assertHasTagName v = Except.error e)
    ∧ (∃ m, assertHasTagName JSValue.vNull = Except.error (JSError.typeError m))
    ∧ (∀ m, assertHasTagName JSValue.vNull ≠ Except.error (JSError.error m)) := by
  have h1 : ∀ v, assertHasTagName v = Except.ok () ↔ hasStringTagName v = true := by
    intro v
    cases v with
    | vNull => simp [assertHasTagName, typeofStr, getProp, hasStringTagName]
    | vUndefined => simp [assertHasTagName, typeofStr, hasStringTagName]
    | vBool b => simp [assertHasTagName, typeofStr, hasStringTagName]
    | vNum q => simp [assertHasTagName, typeofStr, hasStringTagName]
    | vStr s => simp [assertHasTagName, typeofStr, hasStringTagName]
    | vObj fs =>
      cases hL : fs.lookup "tag_name" with
      | none => simp [assertHasTagName, typeofStr, getProp, hasStringTagName, hL]
      | some w =>
        cases w <;> simp [assertHasTagName, typeofStr, getProp, hasStringTagName, hL]
  refine ⟨h1, fun v hv => ?_, ⟨"Cannot read property tag_name of null", rfl⟩,
    fun m => ?_⟩
  · cases hA : assertHasTagName v with
    | error e => exact ⟨e, rfl⟩
    | ok u =>
      cases u
      rw [(h1 v).mp hA] at hv
      exact absurd hv (by simp)
  · intro h
    have : Except.error (JSError.typeError
          ("Cannot read property " ++ "tag_name" ++ " of null"))
        = (Except.error (JSError.error m) : Except JSError Unit) := by
      rw [← h]
      rfl
    simp at this

/-- C10 witness: a non-null object with a string `tag_name` is accepted. -/
theorem assertHasTagName_domain_witness :
    assertHasTagName (JSValue.vObj [("tag_name", JSValue.vStr "v1")])
      = Except.ok () :=
  (assertHasTagName_domain.1 (JSValue.vObj [("tag_name", JSValue.vStr "v1")])).mpr
    rfl

end BedBuild
